import Mathlib

/-!
Verification of the core API-client layer of `ding-tui` (crate `ding-rs`):
the data model (`src/ding-rs/src/types.rs`), the error taxonomy
(`src/ding-rs/src/errors.rs`) and the client with its paginated fetch-all
algorithm (`src/ding-rs/src/client.rs`), shallowly embedded in Lean.

External library primitives (the `url` crate's URL parsing and joining,
`reqwest`'s HTTP transport, `serde_json`'s value model) are modelled as
explicit parameters or small data types; everything written in the
repository itself is translated directly from the Rust source.
-/

namespace DingRs

/-- Model of a parsed absolute URL (the `url` crate's `Url`).  Parsing and
joining are library operations and are passed in as parameters where the
client uses them; the type itself just carries the textual form. -/
structure Url where
  raw : String
deriving DecidableEq, Repr

/-- Model of a UTC timestamp (`chrono::DateTime<Utc>`). -/
structure DateTime where
  ts : Int
deriving DecidableEq, Repr

/-- Model of a JSON value (`serde_json`-style), used for wire payloads and
response bodies. -/
inductive Json where
  | null
  | bool (b : Bool)
  | num (n : Int)
  | str (s : String)
  | arr (elems : List Json)
  | obj (fields : List (String × Json))

/-- Model of `url::ParseError` (payload abstracted). -/
inductive UrlParseError where
  | parseError
deriving DecidableEq, Repr

/-- Model of `reqwest::Error`: a transport failure (connection, timeout,
TLS), a status error produced by `Response::error_for_status`, or a body
decode failure produced by `Response::json`. -/
inductive ReqwestError where
  | transport
  | status (code : Nat)
  | decode
deriving DecidableEq, Repr

/-- The error taxonomy of `src/ding-rs/src/errors.rs`: `DingError` has
exactly the two variants `Url` (wrapping `url::ParseError`) and `Request`
(wrapping `reqwest::Error`). -/
inductive DingError where
  | url (source : UrlParseError)
  | request (source : ReqwestError)
deriving DecidableEq, Repr

/-- Model of a serde deserialization error (`D::Error`): either a type
mismatch raised by the `&str` deserializer, or a custom error raised via
`D::Error::custom` (payload abstracted). -/
inductive DeError where
  | invalidType
  | custom
deriving DecidableEq, Repr

/-- `TagRequest` from `types.rs`. -/
structure TagRequest where
  name : String
deriving DecidableEq, Repr

/-- `TagsRequest` from `types.rs`: paging parameters for the tags
collection. -/
structure TagsRequest where
  limit : Option Nat
  offset : Option Nat
deriving DecidableEq, Repr

/-- `BookmarksRequest` from `types.rs`: filter and paging parameters for
the bookmarks collection. -/
structure BookmarksRequest where
  query : Option String
  limit : Option Nat
  offset : Option Nat
deriving DecidableEq, Repr

/-- `BookmarkRequest` from `types.rs`: the create/replace/patch payload.
Every field is optional; each carries
`#[serde(skip_serializing_if = "Option::is_none")]` in the source. -/
structure BookmarkRequest where
  url : Option Url
  title : Option String
  description : Option String
  notes : Option String
  is_archived : Option Bool
  unread : Option Bool
  shared : Option Bool
  tag_names : Option (List String)
deriving DecidableEq, Repr

/-- `Tag` from `types.rs`. -/
structure Tag where
  id : Nat
  name : String
  date_added : DateTime
deriving DecidableEq, Repr

/-- `Bookmark` from `types.rs`. -/
structure Bookmark where
  id : Nat
  url : Url
  title : String
  description : String
  notes : String
  website_title : Option String
  website_description : Option String
  web_archive_snapshot_url : Option Url
  favicon_url : Option Url
  preview_image_url : Option Url
  is_archived : Bool
  unread : Bool
  shared : Bool
  tag_names : List String
  date_added : DateTime
  date_modified : DateTime
deriving DecidableEq, Repr

/-- `TagsResponse` from `types.rs`: one page envelope of tags. -/
structure TagsResponse where
  count : Nat
  next : Option Url
  previous : Option Url
  results : List Tag
deriving DecidableEq, Repr

/-- `BookmarksResponse` from `types.rs`: one page envelope of bookmarks. -/
structure BookmarksResponse where
  count : Nat
  next : Option Url
  previous : Option Url
  results : List Bookmark
deriving DecidableEq, Repr

/-- The `IterableRequest` trait from `types.rs`: a request parameter
bundle that can be rebuilt with a different limit or offset. -/
class IterableRequest (P : Type) where
  limit : P → Option Nat → P
  offset : P → Option Nat → P

/-- The `IterableResponse<T>` trait from `types.rs`: a response envelope
exposing its continuation indicator and its page of records. -/
class IterableResponse (R : Type) (T : outParam Type) where
  next : R → Option Url
  results : R → List T

/-- `impl IterableRequest for TagsRequest` from `types.rs`. -/
instance instIterReqTags : IterableRequest TagsRequest where
  limit p l := { offset := p.offset, limit := l }
  offset p o := { offset := o, limit := p.limit }

/-- `impl IterableRequest for BookmarksRequest` from `types.rs`. -/
instance instIterReqBookmarks : IterableRequest BookmarksRequest where
  limit p l := { query := p.query, offset := p.offset, limit := l }
  offset p o := { query := p.query, offset := o, limit := p.limit }

/-- `impl IterableResponse<Tag> for TagsResponse` from `types.rs`. -/
instance instIterRespTags : IterableResponse TagsResponse Tag where
  next r := r.next
  results r := r.results

/-- `impl IterableResponse<Bookmark> for BookmarksResponse` from
`types.rs`. -/
instance instIterRespBookmarks : IterableResponse BookmarksResponse Bookmark where
  next r := r.next
  results r := r.results

/-- `empty_url` from `types.rs`: the custom deserializer of
`Bookmark.web_archive_snapshot_url`.  It first deserializes a `&str`
(failing on any non-string JSON value), maps the empty string to `none`,
and otherwise parses the string as a URL, turning a parse failure into a
custom deserialization error.  URL parsing (`Url::parse` of the `url`
crate) is passed in as the `parse` parameter. -/
def empty_url (parse : String → Option Url) : Json → Except DeError (Option Url)
  | Json.str s =>
    if s = "" then Except.ok none
    else
      match parse s with
      | some url => Except.ok (some url)
      | none => Except.error DeError.custom
  | _ => Except.error DeError.invalidType

/-- Serde's derived serialization of one struct field carrying
`#[serde(skip_serializing_if = "Option::is_none")]`: the key/value pair is
emitted iff the field is present. -/
def serField {α : Type} (key : String) (o : Option α) (enc : α → Json) :
    List (String × Json) :=
  match o with
  | some v => [(key, enc v)]
  | none => []

/-- Serde's derived `Serialize` for `BookmarkRequest`: fields in
declaration order, each omitted entirely when `None` (every field carries
`skip_serializing_if = "Option::is_none"` in the source). -/
def serializeBookmarkRequest (r : BookmarkRequest) : List (String × Json) :=
  serField "url" r.url (fun u => Json.str u.raw) ++
  serField "title" r.title Json.str ++
  serField "description" r.description Json.str ++
  serField "notes" r.notes Json.str ++
  serField "is_archived" r.is_archived Json.bool ++
  serField "unread" r.unread Json.bool ++
  serField "shared" r.shared Json.bool ++
  serField "tag_names" r.tag_names (fun ts => Json.arr (ts.map Json.str))

/-- Serde's derived serialization of `Bookmark.web_archive_snapshot_url`
(an `Option<Url>` field with no serialization attribute): `None` is
emitted as JSON `null`, `Some(u)` as the URL string. -/
def serialize_opt_url : Option Url → Json
  | none => Json.null
  | some u => Json.str u.raw

/-- HTTP method, as used by the client. -/
inductive Method where
  | GET
  | POST
  | PUT
  | PATCH
  | DELETE
deriving DecidableEq, Repr

/-- Model of a `reqwest::Response`: the HTTP status code and the (JSON)
body. -/
structure HttpResponse where
  status : Nat
  body : Json

/-- Model of `reqwest::Response::error_for_status`: per the `reqwest`
documentation it turns the response into an error exactly when the status
is a client error (4xx) or a server error (5xx); all other statuses pass
through unchanged. -/
def error_for_status (resp : HttpResponse) : Except ReqwestError HttpResponse :=
  if 400 ≤ resp.status ∧ resp.status ≤ 599 then
    Except.error (ReqwestError.status resp.status)
  else Except.ok resp

/-- `DingClient::_send_request` from `client.rs`:
`req.send().await?.error_for_status()?` followed by the success handler.
The transport outcome `req.send().await` is passed in as `sendResult`;
transport errors and status errors are both converted to
`DingError::Request` by the `?` conversions. -/
def _send_request {O : Type} (sendResult : Except ReqwestError HttpResponse)
    (success : HttpResponse → Except DingError O) : Except DingError O :=
  match sendResult with
  | Except.error e => Except.error (DingError.request e)
  | Except.ok resp =>
    match error_for_status resp with
    | Except.error e => Except.error (DingError.request e)
    | Except.ok resp => success resp

/-- `DingClient::_json_response_handler` from `client.rs`:
`Ok(resp.json().await?)`.  JSON decoding into the target type is a
library primitive and is passed in as `decode`; a decode failure is a
`reqwest::Error` converted to `DingError::Request` by `?`. -/
def _json_response_handler {O : Type} (decode : Json → Option O)
    (resp : HttpResponse) : Except DingError O :=
  match decode resp.body with
  | some o => Except.ok o
  | none => Except.error (DingError.request ReqwestError.decode)

/-- `DingClient::_empty_response_handler` from `client.rs`: discards the
body and succeeds. -/
def _empty_response_handler (resp : HttpResponse) : Except DingError Unit :=
  Except.ok ()

/-- `DingClient::_send_request_with_json_output` from `client.rs`. -/
def _send_request_with_json_output {O : Type} (decode : Json → Option O)
    (sendResult : Except ReqwestError HttpResponse) : Except DingError O :=
  _send_request sendResult (_json_response_handler decode)

/-- `DingClient::_send_request_without_output` from `client.rs`. -/
def _send_request_without_output
    (sendResult : Except ReqwestError HttpResponse) : Except DingError Unit :=
  _send_request sendResult _empty_response_handler

/-- The configuration state of `DingClient` from `client.rs` (the
`reqwest::Client` transport handle carries no configuration of its own and
is left implicit). -/
structure DingClient where
  base_url : Url
  api_token : String
deriving DecidableEq, Repr

/-- `DingClient::new` from `client.rs`: stores the base URL and token; it
performs no network access and is total (it never fails). -/
def DingClient.new (base_url : Url) (api_token : String) : DingClient :=
  { base_url := base_url, api_token := api_token }

/-- Model of a `reqwest::RequestBuilder`: method, absolute URL, headers,
query pairs and optional JSON body. -/
structure RequestBuilder where
  method : Method
  url : Url
  headers : List (String × String)
  query : List (String × String)
  body : Option (List (String × Json))

/-- `DingClient::_request_builder` from `client.rs`: joins the base URL
with the API path (`Url::join`, a library primitive passed in as `join`,
with `none` modelling a `url::ParseError` which `?` converts to
`DingError::Url`), then starts a request carrying the header
`Authorization: Token <token>`. -/
def _request_builder (join : Url → String → Option Url) (c : DingClient)
    (method : Method) (api_path : String) : Except DingError RequestBuilder :=
  match join c.base_url api_path with
  | none => Except.error (DingError.url UrlParseError.parseError)
  | some u =>
    Except.ok
      { method := method
        url := u
        headers := [("Authorization", "Token " ++ c.api_token)]
        query := []
        body := none }

/-- Model of `reqwest::RequestBuilder::query` applied to a slice of pairs
with `Option` values: pairs whose value is `None` are skipped by the
query serializer. -/
def withQuery (rb : RequestBuilder) (pairs : List (String × Option String)) :
    RequestBuilder :=
  { rb with
    query := rb.query ++ pairs.filterMap (fun kv => kv.2.map (fun v => (kv.1, v))) }

/-- Model of `reqwest::RequestBuilder::json`: sets the JSON body. -/
def withJson (rb : RequestBuilder) (body : List (String × Json)) : RequestBuilder :=
  { rb with body := some body }

/-- `DingClient::_bookmarks_request_builder` from `client.rs`: a GET
request with query pairs `q`, `limit`, `offset`, each omitted when the
corresponding field is absent. -/
def _bookmarks_request_builder (join : Url → String → Option Url)
    (c : DingClient) (api_path : String) (params : BookmarksRequest) :
    Except DingError RequestBuilder :=
  match _request_builder join c Method.GET api_path with
  | Except.error e => Except.error e
  | Except.ok rb =>
    Except.ok (withQuery rb
      [("q", params.query),
       ("limit", params.limit.map toString),
       ("offset", params.offset.map toString)])

/-- The public operations of `DingClient`, one constructor per endpoint
method of `client.rs`. -/
inductive ClientOp where
  | bookmarks (params : BookmarksRequest)
  | archived (params : BookmarksRequest)
  | bookmark (id : Nat)
  | createBookmark (params : BookmarkRequest)
  | resetBookmark (id : Nat) (params : BookmarkRequest)
  | updateBookmark (id : Nat) (params : BookmarkRequest)
  | archiveBookmark (id : Nat)
  | unarchiveBookmark (id : Nat)
  | deleteBookmark (id : Nat)
  | tags (params : TagsRequest)
  | tag (id : Nat)
  | createTag (params : TagRequest)
  | userProfile

/-- The request each public operation of `client.rs` builds, method,
path, query and body exactly as in the source. -/
def build_request (join : Url → String → Option Url) (c : DingClient) :
    ClientOp → Except DingError RequestBuilder
  | ClientOp.bookmarks params =>
    _bookmarks_request_builder join c "api/bookmarks/" params
  | ClientOp.archived params =>
    _bookmarks_request_builder join c "api/bookmarks/archived/" params
  | ClientOp.bookmark id =>
    _request_builder join c Method.GET ("api/bookmarks/" ++ toString id ++ "/")
  | ClientOp.createBookmark params =>
    (_request_builder join c Method.POST "api/bookmarks/").map
      (fun rb => withJson rb (serializeBookmarkRequest params))
  | ClientOp.resetBookmark id params =>
    (_request_builder join c Method.PUT ("api/bookmarks/" ++ toString id ++ "/")).map
      (fun rb => withJson rb (serializeBookmarkRequest params))
  | ClientOp.updateBookmark id params =>
    (_request_builder join c Method.PATCH ("api/bookmarks/" ++ toString id ++ "/")).map
      (fun rb => withJson rb (serializeBookmarkRequest params))
  | ClientOp.archiveBookmark id =>
    _request_builder join c Method.POST ("api/bookmarks/" ++ toString id ++ "/archive/")
  | ClientOp.unarchiveBookmark id =>
    _request_builder join c Method.POST ("api/bookmarks/" ++ toString id ++ "/unarchive/")
  | ClientOp.deleteBookmark id =>
    _request_builder join c Method.DELETE ("api/bookmarks/" ++ toString id ++ "/")
  | ClientOp.tags params =>
    (_request_builder join c Method.GET "api/tags").map
      (fun rb => withQuery rb
        [("limit", params.limit.map toString),
         ("offset", params.offset.map toString)])
  | ClientOp.tag id =>
    _request_builder join c Method.GET ("api/tags/" ++ toString id ++ "/")
  | ClientOp.createTag params =>
    (_request_builder join c Method.POST "api/tags/").map
      (fun rb => withJson rb [("name", Json.str params.name)])
  | ClientOp.userProfile =>
    _request_builder join c Method.GET "api/user/profile/"

/-- `DingClient::create_bookmark` from `client.rs`, with the network part
(building, sending and decoding) abstracted as `send`.  The source begins
with `assert!(params.url.is_some(), ...)`; the panic of a failed assert is
modelled as `none`, and it fires before `send` is ever consulted. -/
def create_bookmark (send : BookmarkRequest → Except DingError Bookmark)
    (params : BookmarkRequest) : Option (Except DingError Bookmark) :=
  if params.url.isSome then some (send params) else none

/-- `DingClient::reset_bookmark` from `client.rs`: same
`assert!(params.url.is_some(), ...)` guard as `create_bookmark`. -/
def reset_bookmark (send : BookmarkRequest → Except DingError Bookmark)
    (id : Nat) (params : BookmarkRequest) : Option (Except DingError Bookmark) :=
  if params.url.isSome then some (send params) else none

/-- `DingClient::update_bookmark` from `client.rs`: no precondition check
of any kind, the request is sent for any subset of fields. -/
def update_bookmark (send : BookmarkRequest → Except DingError Bookmark)
    (id : Nat) (params : BookmarkRequest) : Option (Except DingError Bookmark) :=
  some (send params)

/-- The loop of `DingClient::_load_all` from `client.rs` (lines 199-208),
entered with the running `offset`, the accumulated `results` and the
current response `resp`.  `fuel` bounds how many further page requests we
are willing to observe: `none` means the loop was still running after
`fuel` further requests.  Alongside the final result the model returns
the trace of parameter bundles passed to `call`, in order. -/
def _load_all_loop {P R O : Type} [IterableRequest P] [IterableResponse R O]
    (call : P → Except DingError R) (params : P) :
    Nat → Nat → List O → R → Option (List P × Except DingError (List O))
  | fuel, offset, results, resp =>
    let results' := results ++ IterableResponse.results resp
    match IterableResponse.next resp with
    | none => some ([], Except.ok results')
    | some _ =>
      let offset' := offset + (IterableResponse.results resp : List O).length
      let p := IterableRequest.offset params (some offset')
      match fuel with
      | 0 => none
      | fuel + 1 =>
        match call p with
        | Except.error e => some ([p], Except.error e)
        | Except.ok resp' =>
          (_load_all_loop call params fuel offset' results' resp').map
            (fun tr => (p :: tr.1, tr.2))

/-- `DingClient::_load_all` from `client.rs`: clears the caller's `limit`
and `offset`, issues the first page request at offset 0, then runs the
accumulation loop.  The single-page operation is passed in as `call` (in
the source, a closure around `bookmarks`/`archived`/`tags`); the returned
trace lists every parameter bundle passed to `call`. -/
def _load_all {P R O : Type} [IterableRequest P] [IterableResponse R O]
    (call : P → Except DingError R) (params : P) (fuel : Nat) :
    Option (List P × Except DingError (List O)) :=
  let params := IterableRequest.offset (IterableRequest.limit params none) none
  let p0 := IterableRequest.offset params (some 0)
  match call p0 with
  | Except.error e => some ([p0], Except.error e)
  | Except.ok resp =>
    (_load_all_loop call params fuel 0 [] resp).map (fun tr => (p0 :: tr.1, tr.2))

/-- `DingClient::all_bookmarks` from `client.rs`: `_load_all` over the
single-page operation `bookmarks`, abstracted as `call`. -/
def all_bookmarks (call : BookmarksRequest → Except DingError BookmarksResponse)
    (params : BookmarksRequest) (fuel : Nat) :
    Option (List BookmarksRequest × Except DingError (List Bookmark)) :=
  _load_all call params fuel

/-- `DingClient::all_archived` from `client.rs`: `_load_all` over the
single-page operation `archived`, abstracted as `call`. -/
def all_archived (call : BookmarksRequest → Except DingError BookmarksResponse)
    (params : BookmarksRequest) (fuel : Nat) :
    Option (List BookmarksRequest × Except DingError (List Bookmark)) :=
  _load_all call params fuel

/-- `DingClient::all_tags` from `client.rs`: `_load_all` over the
single-page operation `tags`, abstracted as `call`. -/
def all_tags (call : TagsRequest → Except DingError TagsResponse)
    (params : TagsRequest) (fuel : Nat) :
    Option (List TagsRequest × Except DingError (List Tag)) :=
  _load_all call params fuel

/-- One page of a simulated bookmark collection `xs` served `M` records
per page at offset `o`: the records are the slice `xs[o .. o+M)` in server
order, and `next` is present exactly when more records remain past the
slice. -/
def bmPageAt (xs : List Bookmark) (M o : Nat) : BookmarksResponse :=
  { count := xs.length
    next := if o + M < xs.length then some { raw := "next" } else none
    previous := none
    results := (xs.drop o).take M }

/-- The simulated bookmarks server: answers a page request at the offset
the request carries (0 when absent), with stable ordering. -/
def bmServer (xs : List Bookmark) (M : Nat) (p : BookmarksRequest) :
    BookmarksResponse :=
  bmPageAt xs M (p.offset.getD 0)

/-- The simulated bookmarks server as an always-successful single-page
operation. -/
def bmServerCall (xs : List Bookmark) (M : Nat) :
    BookmarksRequest → Except DingError BookmarksResponse :=
  fun p => Except.ok (bmServer xs M p)

/-- The offsets of the page requests the fetch-all loop issues after the
one at offset `o`, against a server holding `N` records served `M` per
page: one request `M` past the previous one as long as records remain. -/
def restOffsets (N M o : Nat) : List Nat :=
  if h : o + M < N ∧ 0 < M then (o + M) :: restOffsets N M (o + M)
  else []
termination_by N - o
decreasing_by omega

/-- A concrete single-page operation that always answers with an empty
final page (`next` absent). -/
def stopServer : BookmarksRequest → Except DingError BookmarksResponse :=
  fun _ => Except.ok { count := 0, next := none, previous := none, results := [] }

/-- A concrete single-page operation that always answers with an empty
page and `next` present. -/
def nextServer : BookmarksRequest → Except DingError BookmarksResponse :=
  fun _ => Except.ok { count := 0, next := some { raw := "u" }, previous := none, results := [] }

/-- The relation along which the fetch-all loop's consecutive page
requests advance: the earlier request got a response with `next` present,
and the later request's offset is the earlier one's plus the number of
records that response returned. -/
def advancesBy (call : BookmarksRequest → Except DingError BookmarksResponse)
    (p q : BookmarksRequest) : Prop :=
  ∃ r, call p = Except.ok r ∧ (r.next).isSome ∧
    q.offset = some (p.offset.getD 0 + r.results.length)

@[simp] lemma tagsReq_limit (p : TagsRequest) (l : Option Nat) :
    IterableRequest.limit p l = { offset := p.offset, limit := l } := rfl

@[simp] lemma tagsReq_offset (p : TagsRequest) (o : Option Nat) :
    IterableRequest.offset p o = { offset := o, limit := p.limit } := rfl

@[simp] lemma bmReq_limit (p : BookmarksRequest) (l : Option Nat) :
    IterableRequest.limit p l = { query := p.query, offset := p.offset, limit := l } := rfl

@[simp] lemma bmReq_offset (p : BookmarksRequest) (o : Option Nat) :
    IterableRequest.offset p o = { query := p.query, offset := o, limit := p.limit } := rfl

@[simp] lemma tagsResp_next (r : TagsResponse) : IterableResponse.next r = r.next := rfl

@[simp] lemma tagsResp_results (r : TagsResponse) :
    (IterableResponse.results r : List Tag) = r.results := rfl

@[simp] lemma bmResp_next (r : BookmarksResponse) : IterableResponse.next r = r.next := rfl

@[simp] lemma bmResp_results (r : BookmarksResponse) :
    (IterableResponse.results r : List Bookmark) = r.results := rfl

lemma exceptMap_ok {ε α β : Type} (f : α → β) (e : Except ε α) (b : β)
    (h : e.map f = Except.ok b) : ∃ a, e = Except.ok a ∧ b = f a := by
  cases e with
  | error err => simp [Except.map] at h
  | ok a => exact ⟨a, rfl, by simpa [Except.map] using h.symm⟩

lemma serField_map_fst {α : Type} (key : String) (o : Option α) (enc : α → Json) :
    (serField key o enc).map Prod.fst = if o.isSome then [key] else [] := by
  cases o <;> rfl

/-- Claim C8: for every `BookmarksRequest` or `TagsRequest` `p` and every
new value `v`, rebuilding through the `IterableRequest` capability changes
only the named paging field: `p.offset(v)` keeps the query and limit of
`p` and `p.limit(v)` keeps the query and offset of `p`; all other filters
are preserved. -/
theorem claim_C8 :
    (∀ (p : BookmarksRequest) (v : Option Nat),
      (IterableRequest.offset p v).query = p.query ∧
      (IterableRequest.offset p v).limit = p.limit ∧
      (IterableRequest.offset p v).offset = v ∧
      (IterableRequest.limit p v).query = p.query ∧
      (IterableRequest.limit p v).offset = p.offset ∧
      (IterableRequest.limit p v).limit = v) ∧
    (∀ (p : TagsRequest) (v : Option Nat),
      (IterableRequest.offset p v).limit = p.limit ∧
      (IterableRequest.offset p v).offset = v ∧
      (IterableRequest.limit p v).offset = p.offset ∧
      (IterableRequest.limit p v).limit = v) :=
  ⟨fun _ _ => ⟨rfl, rfl, rfl, rfl, rfl, rfl⟩, fun _ _ => ⟨rfl, rfl, rfl, rfl⟩⟩

/-- Claim C5: serializing a `BookmarkRequest` to the wire JSON payload
emits exactly the keys of the fields that are present, in declaration
order; every absent field is omitted entirely (no key), so "unset" is
distinguishable from "set to empty string" or "set to false". -/
theorem claim_C5 (r : BookmarkRequest) :
    (serializeBookmarkRequest r).map Prod.fst =
      (if r.url.isSome then ["url"] else []) ++
      (if r.title.isSome then ["title"] else []) ++
      (if r.description.isSome then ["description"] else []) ++
      (if r.notes.isSome then ["notes"] else []) ++
      (if r.is_archived.isSome then ["is_archived"] else []) ++
      (if r.unread.isSome then ["unread"] else []) ++
      (if r.shared.isSome then ["shared"] else []) ++
      (if r.tag_names.isSome then ["tag_names"] else []) := by
  simp only [serializeBookmarkRequest, List.map_append, serField_map_fst]

/-- Claim C4: `create_bookmark` and `reset_bookmark` reject a request
whose `url` is absent before any network activity (the `send` collaborator
is never consulted: the result is `none` for every `send`), while
`update_bookmark` accepts any subset of fields without rejection, and a
request with `url` present is sent unchanged. -/
theorem claim_C4 :
    (∀ (send : BookmarkRequest → Except DingError Bookmark) (params : BookmarkRequest),
      params.url = none → create_bookmark send params = none) ∧
    (∀ (send : BookmarkRequest → Except DingError Bookmark) (id : Nat)
        (params : BookmarkRequest),
      params.url = none → reset_bookmark send id params = none) ∧
    (∀ (send : BookmarkRequest → Except DingError Bookmark) (id : Nat)
        (params : BookmarkRequest),
      (update_bookmark send id params).isSome = true) ∧
    (∀ (send : BookmarkRequest → Except DingError Bookmark) (id : Nat)
        (params : BookmarkRequest),
      update_bookmark send id params = some (send params)) ∧
    (∀ (send : BookmarkRequest → Except DingError Bookmark) (params : BookmarkRequest)
        (u : Url),
      params.url = some u → create_bookmark send params = some (send params)) := by
  refine ⟨fun send params hu => ?_, fun send id params hu => ?_,
    fun _ _ _ => rfl, fun _ _ _ => rfl, fun send params u hu => ?_⟩
  · simp [create_bookmark, hu]
  · simp [reset_bookmark, hu]
  · simp [create_bookmark, hu]

/-- Witness for claim C4 at a concrete request without a URL and a
concrete request with one. -/
theorem claim_C4_witness :
    ((BookmarkRequest.mk none (some "t") none none none none none none).url = none ∧
      create_bookmark (fun _ => Except.error (DingError.request ReqwestError.transport))
        (BookmarkRequest.mk none (some "t") none none none none none none) = none) ∧
    ((BookmarkRequest.mk (some { raw := "https://e.com/" }) none none none none none none
        none).url = some { raw := "https://e.com/" } ∧
      create_bookmark (fun _ => Except.error (DingError.request ReqwestError.transport))
        (BookmarkRequest.mk (some { raw := "https://e.com/" }) none none none none none
          none none) =
        some (Except.error (DingError.request ReqwestError.transport))) :=
  ⟨⟨rfl, claim_C4.1 _ _ rfl⟩, ⟨rfl, claim_C4.2.2.2.2 _ _ _ rfl⟩⟩

/-- Claim C6: the `empty_url` deserializer of
`web_archive_snapshot_url` maps an empty string to no value, a well-formed
non-empty URL string to the parsed URL, and fails the decode on a
malformed non-empty string (serde propagates the field error, failing the
whole `Bookmark` decode). -/
theorem claim_C6 (parse : String → Option Url) :
    (empty_url parse (Json.str "") = Except.ok none) ∧
    (∀ (s : String) (u : Url), s ≠ "" → parse s = some u →
      empty_url parse (Json.str s) = Except.ok (some u)) ∧
    (∀ (s : String), s ≠ "" → parse s = none →
      empty_url parse (Json.str s) = Except.error DeError.custom) := by
  refine ⟨rfl, fun s u hs hp => ?_, fun s hs hp => ?_⟩
  · simp [empty_url, hs, hp]
  · simp [empty_url, hs, hp]

/-- Witness for claim C6 at a concrete parser and concrete strings. -/
theorem claim_C6_witness :
    (empty_url (fun s => if s = "https://e.com/" then some (Url.mk s) else none)
        (Json.str "") = Except.ok none) ∧
    (("https://e.com/" : String) ≠ "" ∧
      (if ("https://e.com/" : String) = "https://e.com/"
        then some (Url.mk "https://e.com/") else none) =
          some (Url.mk "https://e.com/") ∧
      empty_url (fun s => if s = "https://e.com/" then some (Url.mk s) else none)
        (Json.str "https://e.com/") = Except.ok (some (Url.mk "https://e.com/"))) ∧
    (("::not a url" : String) ≠ "" ∧
      (if ("::not a url" : String) = "https://e.com/"
        then some (Url.mk "::not a url") else none) = none ∧
      empty_url (fun s => if s = "https://e.com/" then some (Url.mk s) else none)
        (Json.str "::not a url") = Except.error DeError.custom) :=
  ⟨(claim_C6 _).1,
    ⟨by decide, by decide,
      (claim_C6 _).2.1 "https://e.com/" (Url.mk "https://e.com/") (by decide) (by decide)⟩,
    ⟨by decide, by decide, (claim_C6 _).2.2 "::not a url" (by decide) (by decide)⟩⟩

/-- Claim C9: the `empty_url` deserializer accepts only JSON strings, so a
`null` (or any non-string) `web_archive_snapshot_url` fails to decode; in
particular serde's derived serializer emits `null` for an absent snapshot
URL, and decoding that output fails, so the encode/decode round-trip does
not hold for this field. -/
theorem claim_C9 (parse : String → Option Url) :
    (∀ j : Json, (∀ s, j ≠ Json.str s) →
      empty_url parse j = Except.error DeError.invalidType) ∧
    (serialize_opt_url none = Json.null) ∧
    (empty_url parse (serialize_opt_url none) = Except.error DeError.invalidType) := by
  refine ⟨fun j hj => ?_, rfl, rfl⟩
  cases j with
  | str s => exact absurd rfl (hj s)
  | null => rfl
  | bool b => rfl
  | num n => rfl
  | arr elems => rfl
  | obj fields => rfl

/-- Witness for claim C9 at a concrete parser and the concrete non-string
value `null`. -/
theorem claim_C9_witness :
    ((∀ s, Json.null ≠ Json.str s) ∧
      empty_url (fun _ => none) Json.null = Except.error DeError.invalidType) ∧
    serialize_opt_url none = Json.null ∧
    empty_url (fun _ => none) (serialize_opt_url none) =
      Except.error DeError.invalidType :=
  ⟨⟨fun s h => Json.noConfusion h,
      (claim_C9 (fun _ => none)).1 Json.null (fun s h => Json.noConfusion h)⟩,
    (claim_C9 (fun _ => none)).2.1, (claim_C9 (fun _ => none)).2.2⟩

/-- Counterexample to claim C3 as stated: a 304 response is not 2xx, yet
`error_for_status` (which errors only on 4xx/5xx) passes it through, the
body is handed to the JSON decoder, and the call succeeds instead of
producing a Request-kind error. -/
theorem claim_C3_counterexample :
    ¬(200 ≤ (304 : Nat) ∧ (304 : Nat) ≤ 299) ∧
    _send_request_with_json_output (fun _ => some (42 : Nat))
      (Except.ok { status := 304, body := Json.null }) = Except.ok 42 :=
  ⟨by decide, rfl⟩

/-- Claim C3 (amended): every 4xx or 5xx HTTP status is converted to a
Request-kind error before any JSON decoding is attempted (the result does
not depend on the decoder at all), and every failure the client surfaces
is one of the two taxonomy kinds, Url or Request.  Statuses outside
400-599 (including redirect or informational non-2xx statuses such as
304) are passed to the decoder, matching `reqwest`'s `error_for_status`
rather than the literal "non-2xx" of the claim. -/
theorem claim_C3 :
    (∀ (O : Type) (resp : HttpResponse) (d₁ d₂ : Json → Option O),
      400 ≤ resp.status → resp.status ≤ 599 →
      _send_request_with_json_output d₁ (Except.ok resp)
          = Except.error (DingError.request (ReqwestError.status resp.status)) ∧
        _send_request_with_json_output d₁ (Except.ok resp)
          = _send_request_with_json_output d₂ (Except.ok resp)) ∧
    (∀ e : DingError,
      (∃ u, e = DingError.url u) ∨ (∃ r, e = DingError.request r)) := by
  constructor
  · intro O resp d₁ d₂ h4 h5
    have herr : error_for_status resp
        = Except.error (ReqwestError.status resp.status) := by
      unfold error_for_status
      rw [if_pos ⟨h4, h5⟩]
    constructor
    · simp only [_send_request_with_json_output, _send_request, herr]
    · simp only [_send_request_with_json_output, _send_request, herr]
  · intro e
    cases e with
    | url u => exact Or.inl ⟨u, rfl⟩
    | request r => exact Or.inr ⟨r, rfl⟩

/-- Witness for claim C3 at a concrete 404 response and two decoders that
disagree everywhere. -/
theorem claim_C3_witness :
    (400 ≤ (404 : Nat) ∧ (404 : Nat) ≤ 599 ∧
      (_send_request_with_json_output (fun _ => some (1 : Nat))
          (Except.ok { status := 404, body := Json.null })
        = Except.error (DingError.request (ReqwestError.status 404)) ∧
       _send_request_with_json_output (fun _ => some (1 : Nat))
          (Except.ok { status := 404, body := Json.null })
        = _send_request_with_json_output (fun _ => (none : Option Nat))
          (Except.ok { status := 404, body := Json.null }))) ∧
    ((∃ u, DingError.url UrlParseError.parseError = DingError.url u) ∨
      (∃ r, DingError.url UrlParseError.parseError = DingError.request r)) :=
  ⟨⟨by decide, by decide,
      claim_C3.1 Nat { status := 404, body := Json.null } (fun _ => some 1)
        (fun _ => none) (by decide) (by decide)⟩,
    claim_C3.2 (DingError.url UrlParseError.parseError)⟩

lemma request_builder_headers (join : Url → String → Option Url) (c : DingClient)
    (method : Method) (api_path : String) (rb : RequestBuilder)
    (h : _request_builder join c method api_path = Except.ok rb) :
    rb.headers = [("Authorization", "Token " ++ c.api_token)] := by
  unfold _request_builder at h
  revert h
  cases join c.base_url api_path <;> intro h
  · exact absurd h (by simp)
  · injection h with h
    rw [← h]

lemma bookmarks_request_builder_headers (join : Url → String → Option Url)
    (c : DingClient) (api_path : String) (params : BookmarksRequest)
    (rb : RequestBuilder)
    (h : _bookmarks_request_builder join c api_path params = Except.ok rb) :
    rb.headers = [("Authorization", "Token " ++ c.api_token)] := by
  unfold _bookmarks_request_builder at h
  revert h
  cases hb : _request_builder join c Method.GET api_path with
  | error e =>
    intro h
    exact absurd h (by simp)
  | ok rb0 =>
    intro h
    injection h with h
    rw [← h]
    exact request_builder_headers join c Method.GET api_path rb0 hb

/-- Claim C7: the client's construction from a base URL and token is total
(it never fails, storing exactly its arguments), and every request built
by any client operation carries the header `Authorization: Token <token>`
with the configured token, regardless of the operation's parameters. -/
theorem claim_C7 (join : Url → String → Option Url) (c : DingClient) :
    (∀ (u : Url) (t : String),
      DingClient.new u t = { base_url := u, api_token := t }) ∧
    (∀ (op : ClientOp) (rb : RequestBuilder),
      build_request join c op = Except.ok rb →
      ("Authorization", "Token " ++ c.api_token) ∈ rb.headers) := by
  refine ⟨fun u t => rfl, fun op rb h => ?_⟩
  have mem : ∀ rb' : RequestBuilder,
      rb'.headers = [("Authorization", "Token " ++ c.api_token)] →
      ("Authorization", "Token " ++ c.api_token) ∈ rb'.headers := by
    intro rb' he
    rw [he]
    exact List.mem_singleton_self _
  cases op with
  | bookmarks params => exact mem _ (bookmarks_request_builder_headers _ _ _ _ _ h)
  | archived params => exact mem _ (bookmarks_request_builder_headers _ _ _ _ _ h)
  | bookmark id => exact mem _ (request_builder_headers _ _ _ _ _ h)
  | createBookmark params =>
    obtain ⟨rb0, hb, hrb⟩ := exceptMap_ok _ _ _ h
    exact mem _ (by rw [hrb]; exact request_builder_headers join c _ _ rb0 hb)
  | resetBookmark id params =>
    obtain ⟨rb0, hb, hrb⟩ := exceptMap_ok _ _ _ h
    exact mem _ (by rw [hrb]; exact request_builder_headers join c _ _ rb0 hb)
  | updateBookmark id params =>
    obtain ⟨rb0, hb, hrb⟩ := exceptMap_ok _ _ _ h
    exact mem _ (by rw [hrb]; exact request_builder_headers join c _ _ rb0 hb)
  | archiveBookmark id => exact mem _ (request_builder_headers _ _ _ _ _ h)
  | unarchiveBookmark id => exact mem _ (request_builder_headers _ _ _ _ _ h)
  | deleteBookmark id => exact mem _ (request_builder_headers _ _ _ _ _ h)
  | tags params =>
    obtain ⟨rb0, hb, hrb⟩ := exceptMap_ok _ _ _ h
    exact mem _ (by rw [hrb]; exact request_builder_headers join c _ _ rb0 hb)
  | tag id => exact mem _ (request_builder_headers _ _ _ _ _ h)
  | createTag params =>
    obtain ⟨rb0, hb, hrb⟩ := exceptMap_ok _ _ _ h
    exact mem _ (by rw [hrb]; exact request_builder_headers join c _ _ rb0 hb)
  | userProfile => exact mem _ (request_builder_headers _ _ _ _ _ h)

/-- Witness for claim C7 at a concrete join function, client and
operation. -/
theorem claim_C7_witness :
    (DingClient.new (Url.mk "http://h/") "tok"
      = { base_url := Url.mk "http://h/", api_token := "tok" }) ∧
    (build_request (fun b s => some (Url.mk (b.raw ++ s)))
        (DingClient.new (Url.mk "http://h/") "tok") (ClientOp.bookmark 3)
      = Except.ok
          { method := Method.GET
            url := Url.mk "http://h/api/bookmarks/3/"
            headers := [("Authorization", "Token tok")]
            query := []
            body := none }) ∧
    ("Authorization", "Token " ++ "tok") ∈
      ({ method := Method.GET
         url := Url.mk "http://h/api/bookmarks/3/"
         headers := [("Authorization", "Token tok")]
         query := []
         body := none } : RequestBuilder).headers :=
  ⟨(claim_C7 (fun b s => some (Url.mk (b.raw ++ s)))
      (DingClient.new (Url.mk "http://h/") "tok")).1 _ _,
    by rfl,
    (claim_C7 (fun b s => some (Url.mk (b.raw ++ s)))
      (DingClient.new (Url.mk "http://h/") "tok")).2 (ClientOp.bookmark 3) _ (by rfl)⟩

@[simp] lemma bmPageAt_next (xs : List Bookmark) (M o : Nat) :
    (bmPageAt xs M o).next
      = if o + M < xs.length then some { raw := "next" } else none := rfl

@[simp] lemma bmPageAt_results (xs : List Bookmark) (M o : Nat) :
    (bmPageAt xs M o).results = (xs.drop o).take M := rfl

lemma restOffsets_eq (N M : Nat) (hM : 0 < M) :
    ∀ (d o : Nat), N - o ≤ d →
      restOffsets N M o
        = (List.range ((N - o - 1) / M)).map (fun i => o + (i + 1) * M) := by
  intro d
  induction d with
  | zero =>
    intro o ho
    rw [restOffsets, dif_neg (by omega)]
    have hz : (N - o - 1) / M = 0 := Nat.div_eq_of_lt (by omega)
    rw [hz]
    rfl
  | succ d ih =>
    intro o ho
    by_cases hlt : o + M < N
    · rw [restOffsets, dif_pos ⟨hlt, hM⟩, ih (o + M) (by omega)]
      have h1 : N - o - 1 = (N - (o + M) - 1) + M := by omega
      rw [h1, Nat.add_div_right _ hM, List.range_succ_eq_map, List.map_cons,
        List.map_map]
      have hfun : ((fun i => o + (i + 1) * M) ∘ Nat.succ)
          = fun i => o + M + (i + 1) * M := by
        funext i
        simp only [Function.comp, Nat.succ_eq_add_one]
        ring
      rw [hfun]
      congr 1
      simp
    · rw [restOffsets, dif_neg (by omega)]
      have hz : (N - o - 1) / M = 0 := Nat.div_eq_of_lt (by omega)
      rw [hz]
      rfl

lemma load_all_loop_bmServer (xs : List Bookmark) (M : Nat) (hM : 0 < M)
    (params : BookmarksRequest) :
    ∀ (fuel o : Nat), xs.length ≤ o + M + fuel * M →
      _load_all_loop (bmServerCall xs M) params fuel o (xs.take o) (bmPageAt xs M o)
        = some ((restOffsets xs.length M o).map
            (fun j => IterableRequest.offset params (some j)), Except.ok xs) := by
  intro fuel
  induction fuel with
  | zero =>
    intro o ho
    have hnlt : ¬(o + M < xs.length) := by omega
    have htake : xs.take o ++ (xs.drop o).take M = xs := by
      rw [← List.take_add]
      exact List.take_of_length_le (by omega)
    rw [_load_all_loop]
    simp only [bmResp_next, bmResp_results, bmPageAt_next, bmPageAt_results,
      if_neg hnlt, htake]
    rw [restOffsets, dif_neg (by omega)]
    rfl
  | succ fuel ih =>
    intro o ho
    have hmul : (fuel + 1) * M = fuel * M + M := by ring
    by_cases hlt : o + M < xs.length
    · have hlen : ((xs.drop o).take M).length = M := by
        rw [List.length_take, List.length_drop]
        omega
      have htake : xs.take o ++ (xs.drop o).take M = xs.take (o + M) :=
        (List.take_add xs o M).symm
      have hcall : bmServerCall xs M (IterableRequest.offset params (some (o + M)))
          = Except.ok (bmPageAt xs M (o + M)) := rfl
      rw [_load_all_loop]
      simp only [bmResp_next, bmResp_results, bmPageAt_next, bmPageAt_results,
        if_pos hlt, hlen, htake, hcall]
      rw [restOffsets, dif_pos ⟨hlt, hM⟩, List.map_cons]
      rw [ih (o + M) (by omega)]
      rfl
    · have htake : xs.take o ++ (xs.drop o).take M = xs := by
        rw [← List.take_add]
        exact List.take_of_length_le (by omega)
      rw [_load_all_loop]
      simp only [bmResp_next, bmResp_results, bmPageAt_next, bmPageAt_results,
        if_neg hlt, htake]
      rw [restOffsets, dif_neg (by omega)]
      rfl

lemma numRequests_eq (N M : Nat) (hM : 0 < M) :
    (if N = 0 then 1 else (N + M - 1) / M) = (N - 1) / M + 1 := by
  by_cases hN : N = 0
  · subst hN
    simp
  · rw [if_neg hN]
    have h1 : N + M - 1 = (N - 1) + M := by omega
    rw [h1, Nat.add_div_right _ hM]

lemma prevPages_sum (xs : List Bookmark) (M : Nat) (hM : 0 < M) (q : Option String) :
    ∀ i, i < (xs.length - 1) / M + 1 →
      i * M = ((List.range i).map (fun j => (bmServer xs M { query := q, limit := none, offset := some (j * M) }).results.length)).sum := by
  intro i
  induction i with
  | zero =>
    intro _
    simp
  | succ i ih =>
    intro hik
    have hle : i * M + M ≤ xs.length - 1 := by
      have h2 : i + 1 ≤ (xs.length - 1) / M := by omega
      have h3 : (i + 1) * M ≤ ((xs.length - 1) / M) * M := Nat.mul_le_mul_right M h2
      have h4 : ((xs.length - 1) / M) * M ≤ xs.length - 1 := Nat.div_mul_le_self _ _
      have h5 : (i + 1) * M = i * M + M := by ring
      omega
    have ihh := ih (by omega)
    rw [List.range_succ, List.map_append, List.sum_append, ← ihh]
    simp only [List.map_cons, List.map_nil, List.sum_cons, List.sum_nil]
    have hpage : (bmServer xs M { query := q, limit := none, offset := some (i * M) }).results.length = M := by
      simp only [bmServer, bmPageAt, Option.getD]
      rw [List.length_take, List.length_drop]
      omega
    rw [hpage]
    ring

/-- Claim C1: against a simulated collection of `xs.length` bookmarks
served `M` per page (stable server order, `next` present iff records
remain), `all_bookmarks` returns exactly the collection in server order,
issuing `ceil(N/M)` sequential page requests (one request when the
collection is empty), the i-th carrying offset `i*M`, which equals the sum
of the record counts of all previously returned pages. -/
theorem claim_C1 (xs : List Bookmark) (M : Nat) (params : BookmarksRequest)
    (hM : 0 < M) :
    all_bookmarks (bmServerCall xs M) params xs.length
      = some ((List.range (if xs.length = 0 then 1 else (xs.length + M - 1) / M)).map
            (fun i => { query := params.query, limit := none, offset := some (i * M) }),
          Except.ok xs)
    ∧ ∀ i, i < (if xs.length = 0 then 1 else (xs.length + M - 1) / M) →
        i * M = ((List.range i).map (fun j => (bmServer xs M { query := params.query, limit := none, offset := some (j * M) }).results.length)).sum := by
  constructor
  · have hfuel : xs.length ≤ 0 + M + xs.length * M := by
      have h1 : xs.length * 1 ≤ xs.length * M := Nat.mul_le_mul_left xs.length hM
      omega
    have hloop := load_all_loop_bmServer xs M hM
      (IterableRequest.offset (IterableRequest.limit params none) none)
      xs.length 0 hfuel
    have htake0 : xs.take (0 : Nat) = [] := rfl
    rw [htake0] at hloop
    have hstep : all_bookmarks (bmServerCall xs M) params xs.length
        = Option.map
            (fun tr =>
              (IterableRequest.offset
                  (IterableRequest.offset (IterableRequest.limit params none) none)
                  (some 0) :: tr.1,
                tr.2))
            (_load_all_loop (bmServerCall xs M)
              (IterableRequest.offset (IterableRequest.limit params none) none)
              xs.length 0 [] (bmPageAt xs M 0)) := rfl
    rw [hstep, hloop]
    rw [restOffsets_eq xs.length M hM xs.length 0 (by omega), List.map_map]
    rw [numRequests_eq _ _ hM]
    have hzero : xs.length - 0 - 1 = xs.length - 1 := by omega
    rw [hzero, List.range_succ_eq_map, List.map_cons, List.map_map]
    simp only [Option.map_some']
    congr 2
    congr 1
    · simp
    · congr 1
      funext i
      simp [Function.comp]
  · intro i hi
    rw [numRequests_eq _ _ hM] at hi
    exact prevPages_sum xs M hM params.query i hi

/-- Witness for claim C1 at the concrete empty collection, exercising the
empty-collection case: one page request at offset 0 and an empty result. -/
theorem claim_C1_witness :
    0 < 2 ∧
    (all_bookmarks (bmServerCall [] 2)
        { query := some "q", limit := some 5, offset := some 7 }
        (List.length ([] : List Bookmark))
      = some ((List.range
            (if List.length ([] : List Bookmark) = 0 then 1
             else (List.length ([] : List Bookmark) + 2 - 1) / 2)).map
            (fun i => { query := some "q", limit := none, offset := some (i * 2) }),
          Except.ok ([] : List Bookmark))
    ∧ ∀ i, i < (if List.length ([] : List Bookmark) = 0 then 1
          else (List.length ([] : List Bookmark) + 2 - 1) / 2) →
        i * 2 = ((List.range i).map (fun j => (bmServer [] 2 { query := some "q", limit := none, offset := some (j * 2) }).results.length)).sum) :=
  ⟨by decide,
    claim_C1 [] 2 { query := some "q", limit := some 5, offset := some 7 } (by decide)⟩

lemma load_all_loop_shape {P R O : Type} [IterableRequest P] [IterableResponse R O]
    (call : P → Except DingError R) (params : P) :
    ∀ (fuel o : Nat) (acc : List O) (resp : R) (tr : List P)
      (res : Except DingError (List O)),
      _load_all_loop call params fuel o acc resp = some (tr, res) →
      ∀ p ∈ tr, ∃ j, p = IterableRequest.offset params (some j) := by
  intro fuel
  induction fuel with
  | zero =>
    intro o acc resp tr res h p hp
    rw [_load_all_loop] at h
    cases hnext : IterableResponse.next resp with
    | none =>
      simp only [hnext, Option.some.injEq, Prod.mk.injEq] at h
      rw [← h.1] at hp
      exact absurd hp (List.not_mem_nil p)
    | some u =>
      simp only [hnext] at h
      exact Option.noConfusion h
  | succ fuel ih =>
    intro o acc resp tr res h p hp
    rw [_load_all_loop] at h
    cases hnext : IterableResponse.next resp with
    | none =>
      simp only [hnext, Option.some.injEq, Prod.mk.injEq] at h
      rw [← h.1] at hp
      exact absurd hp (List.not_mem_nil p)
    | some u =>
      simp only [hnext] at h
      cases hcall : call (IterableRequest.offset params
          (some (o + (IterableResponse.results resp : List O).length))) with
      | error e =>
        simp only [hcall, Option.some.injEq, Prod.mk.injEq] at h
        rw [← h.1] at hp
        rcases List.mem_singleton.mp hp with rfl
        exact ⟨_, rfl⟩
      | ok resp' =>
        simp only [hcall, Option.map_eq_some', Prod.mk.injEq] at h
        obtain ⟨a, ha, htr, hres⟩ := h
        rw [← htr] at hp
        rcases List.mem_cons.mp hp with rfl | hmem
        · exact ⟨_, rfl⟩
        · exact ih _ _ resp' a.1 a.2 (by rw [ha]) p hmem

lemma load_all_trace_form {P R O : Type} [IterableRequest P] [IterableResponse R O]
    (call : P → Except DingError R) (params : P) (fuel : Nat) (tr : List P)
    (res : Except DingError (List O))
    (h : _load_all call params fuel = some (tr, res)) :
    tr.head? = some (IterableRequest.offset
        (IterableRequest.offset (IterableRequest.limit params none) none) (some 0)) ∧
    ∀ p ∈ tr, ∃ j, p = IterableRequest.offset
        (IterableRequest.offset (IterableRequest.limit params none) none) (some j) := by
  simp only [_load_all] at h
  cases hcall : call (IterableRequest.offset
      (IterableRequest.offset (IterableRequest.limit params none) none) (some 0)) with
  | error e =>
    simp only [hcall, Option.some.injEq, Prod.mk.injEq] at h
    rw [← h.1]
    refine ⟨rfl, fun p hp => ?_⟩
    rcases List.mem_singleton.mp hp with rfl
    exact ⟨0, rfl⟩
  | ok resp =>
    simp only [hcall, Option.map_eq_some', Prod.mk.injEq] at h
    obtain ⟨a, ha, htr, hres⟩ := h
    rw [← htr]
    refine ⟨rfl, fun p hp => ?_⟩
    rcases List.mem_cons.mp hp with rfl | hmem
    · exact ⟨0, rfl⟩
    · exact load_all_loop_shape call _ fuel 0 [] resp a.1 a.2
        (by rw [ha]) p hmem

/-- Claim C2: for every parameter bundle passed to `all_bookmarks`,
`all_archived` or `all_tags`, the caller-supplied `limit` and `offset` are
cleared before the first page request (the first request carries
`limit = none` and an explicit offset 0), every page request carries an
explicitly set offset and no limit, the caller's limit never appears in
any page request, and (for bookmarks) the query filter is preserved. -/
theorem claim_C2 :
    (∀ (call : BookmarksRequest → Except DingError BookmarksResponse)
        (params : BookmarksRequest) (fuel : Nat) (tr : List BookmarksRequest)
        (res : Except DingError (List Bookmark)),
      all_bookmarks call params fuel = some (tr, res) →
        tr.head? = some { query := params.query, limit := none, offset := some 0 } ∧
        ∀ p ∈ tr, p.limit = none ∧ p.query = params.query ∧ ∃ j, p.offset = some j) ∧
    (∀ (call : BookmarksRequest → Except DingError BookmarksResponse)
        (params : BookmarksRequest) (fuel : Nat) (tr : List BookmarksRequest)
        (res : Except DingError (List Bookmark)),
      all_archived call params fuel = some (tr, res) →
        tr.head? = some { query := params.query, limit := none, offset := some 0 } ∧
        ∀ p ∈ tr, p.limit = none ∧ p.query = params.query ∧ ∃ j, p.offset = some j) ∧
    (∀ (call : TagsRequest → Except DingError TagsResponse)
        (params : TagsRequest) (fuel : Nat) (tr : List TagsRequest)
        (res : Except DingError (List Tag)),
      all_tags call params fuel = some (tr, res) →
        tr.head? = some { limit := none, offset := some 0 } ∧
        ∀ p ∈ tr, p.limit = none ∧ ∃ j, p.offset = some j) := by
  refine ⟨fun call params fuel tr res h => ?_, fun call params fuel tr res h => ?_,
    fun call params fuel tr res h => ?_⟩
  · obtain ⟨hhead, hmem⟩ := load_all_trace_form call params fuel tr res h
    refine ⟨hhead, fun p hp => ?_⟩
    obtain ⟨j, rfl⟩ := hmem p hp
    exact ⟨rfl, rfl, j, rfl⟩
  · obtain ⟨hhead, hmem⟩ := load_all_trace_form call params fuel tr res h
    refine ⟨hhead, fun p hp => ?_⟩
    obtain ⟨j, rfl⟩ := hmem p hp
    exact ⟨rfl, rfl, j, rfl⟩
  · obtain ⟨hhead, hmem⟩ := load_all_trace_form call params fuel tr res h
    refine ⟨hhead, fun p hp => ?_⟩
    obtain ⟨j, rfl⟩ := hmem p hp
    exact ⟨rfl, j, rfl⟩

/-- Witness for claim C2 at concrete one-page servers for all three
fetch-all operations. -/
theorem claim_C2_witness :
    (all_bookmarks
        (fun _ => Except.ok ({ count := 0, next := none, previous := none, results := [] } : BookmarksResponse))
        { query := some "a", limit := some 3, offset := some 9 } 5
      = some ([{ query := some "a", limit := none, offset := some 0 }],
          Except.ok []) ∧
      ([({ query := some "a", limit := none, offset := some 0 } : BookmarksRequest)].head?
          = some { query := some "a", limit := none, offset := some 0 } ∧
        ∀ p ∈ [({ query := some "a", limit := none, offset := some 0 } : BookmarksRequest)],
          p.limit = none ∧ p.query = some "a" ∧ ∃ j, p.offset = some j)) ∧
    (all_archived
        (fun _ => Except.ok ({ count := 0, next := none, previous := none, results := [] } : BookmarksResponse))
        { query := some "a", limit := some 3, offset := some 9 } 5
      = some ([{ query := some "a", limit := none, offset := some 0 }],
          Except.ok []) ∧
      ([({ query := some "a", limit := none, offset := some 0 } : BookmarksRequest)].head?
          = some { query := some "a", limit := none, offset := some 0 } ∧
        ∀ p ∈ [({ query := some "a", limit := none, offset := some 0 } : BookmarksRequest)],
          p.limit = none ∧ p.query = some "a" ∧ ∃ j, p.offset = some j)) ∧
    (all_tags
        (fun _ => Except.ok ({ count := 0, next := none, previous := none, results := [] } : TagsResponse))
        { limit := some 3, offset := some 9 } 5
      = some ([{ limit := none, offset := some 0 }], Except.ok []) ∧
      ([({ limit := none, offset := some 0 } : TagsRequest)].head?
          = some { limit := none, offset := some 0 } ∧
        ∀ p ∈ [({ limit := none, offset := some 0 } : TagsRequest)],
          p.limit = none ∧ ∃ j, p.offset = some j)) :=
  ⟨⟨by rfl,
      claim_C2.1
        (fun _ => Except.ok ({ count := 0, next := none, previous := none, results := [] } : BookmarksResponse))
        { query := some "a", limit := some 3, offset := some 9 } 5 _ _ (by rfl)⟩,
    ⟨by rfl,
      claim_C2.2.1
        (fun _ => Except.ok ({ count := 0, next := none, previous := none, results := [] } : BookmarksResponse))
        { query := some "a", limit := some 3, offset := some 9 } 5 _ _ (by rfl)⟩,
    ⟨by rfl,
      claim_C2.2.2
        (fun _ => Except.ok ({ count := 0, next := none, previous := none, results := [] } : TagsResponse))
        { limit := some 3, offset := some 9 } 5 _ _ (by rfl)⟩⟩

lemma load_all_loop_chain (call : BookmarksRequest → Except DingError BookmarksResponse)
    (params : BookmarksRequest) :
    ∀ (fuel o : Nat) (acc : List Bookmark) (resp : BookmarksResponse)
      (tr : List BookmarksRequest) (res : Except DingError (List Bookmark)),
      call (IterableRequest.offset params (some o)) = Except.ok resp →
      _load_all_loop call params fuel o acc resp = some (tr, res) →
      List.Chain' (advancesBy call) (IterableRequest.offset params (some o) :: tr) := by
  intro fuel
  induction fuel with
  | zero =>
    intro o acc resp tr res hc h
    rw [_load_all_loop] at h
    cases hnext : resp.next with
    | none =>
      simp only [bmResp_next, hnext, Option.some.injEq, Prod.mk.injEq] at h
      rw [← h.1]
      exact List.chain'_singleton _
    | some u =>
      simp only [bmResp_next, hnext] at h
      exact Option.noConfusion h
  | succ fuel ih =>
    intro o acc resp tr res hc h
    rw [_load_all_loop] at h
    cases hnext : resp.next with
    | none =>
      simp only [bmResp_next, hnext, Option.some.injEq, Prod.mk.injEq] at h
      rw [← h.1]
      exact List.chain'_singleton _
    | some u =>
      simp only [bmResp_next, bmResp_results, hnext] at h
      cases hcall : call (IterableRequest.offset params
          (some (o + resp.results.length))) with
      | error e =>
        simp only [hcall, Option.some.injEq, Prod.mk.injEq] at h
        rw [← h.1]
        refine List.chain'_cons.mpr ⟨⟨resp, hc, by rw [hnext]; rfl, ?_⟩,
          List.chain'_singleton _⟩
        simp
      | ok resp' =>
        simp only [hcall, Option.map_eq_some', Prod.mk.injEq] at h
        obtain ⟨a, ha, htr, hres⟩ := h
        rw [← htr]
        refine List.chain'_cons.mpr ⟨⟨resp, hc, by rw [hnext]; rfl, by simp⟩, ?_⟩
        exact ih (o + resp.results.length) _ resp' a.1 a.2 hcall (by rw [ha])

lemma load_all_loop_last (call : BookmarksRequest → Except DingError BookmarksResponse)
    (params : BookmarksRequest) :
    ∀ (fuel o : Nat) (acc : List Bookmark) (resp : BookmarksResponse)
      (tr : List BookmarksRequest) (res : List Bookmark),
      _load_all_loop call params fuel o acc resp = some (tr, Except.ok res) →
      (tr = [] ∧ resp.next = none) ∨
        ∃ hne : tr ≠ [], ∃ r, call (tr.getLast hne) = Except.ok r ∧ r.next = none := by
  intro fuel
  induction fuel with
  | zero =>
    intro o acc resp tr res h
    rw [_load_all_loop] at h
    cases hnext : resp.next with
    | none =>
      simp only [bmResp_next, hnext, Option.some.injEq, Prod.mk.injEq] at h
      exact Or.inl ⟨h.1.symm, rfl⟩
    | some u =>
      simp only [bmResp_next, hnext] at h
      exact Option.noConfusion h
  | succ fuel ih =>
    intro o acc resp tr res h
    rw [_load_all_loop] at h
    cases hnext : resp.next with
    | none =>
      simp only [bmResp_next, hnext, Option.some.injEq, Prod.mk.injEq] at h
      exact Or.inl ⟨h.1.symm, rfl⟩
    | some u =>
      simp only [bmResp_next, bmResp_results, hnext] at h
      cases hcall : call (IterableRequest.offset params
          (some (o + resp.results.length))) with
      | error e =>
        simp only [hcall, Option.some.injEq, Prod.mk.injEq] at h
        exact absurd h.2 (by simp)
      | ok resp' =>
        simp only [hcall, Option.map_eq_some', Prod.mk.injEq] at h
        obtain ⟨a, ha, htr, hres⟩ := h
        have ha' : _load_all_loop call params fuel (o + resp.results.length)
            (acc ++ resp.results) resp' = some (a.1, Except.ok res) := by
          rw [ha, ← hres]
        rcases ih (o + resp.results.length) (acc ++ resp.results) resp' a.1 res ha'
          with ⟨hnil, hrn⟩ | ⟨hne, r, hcr, hrn⟩
        · rw [← htr, hnil]
          refine Or.inr ⟨by simp, resp', ?_, hrn⟩
          simpa using hcall
        · rw [← htr]
          refine Or.inr ⟨by simp, r, ?_, hrn⟩
          rw [List.getLast_cons hne]
          exact hcr

lemma load_all_loop_forever {P R O : Type} [IterableRequest P] [IterableResponse R O]
    (call : P → Except DingError R) (params : P)
    (hall : ∀ p, ∃ r, call p = Except.ok r ∧ (IterableResponse.next r : Option Url).isSome) :
    ∀ (fuel o : Nat) (acc : List O) (resp : R),
      (IterableResponse.next resp : Option Url).isSome →
      _load_all_loop call params fuel o acc resp = none := by
  intro fuel
  induction fuel with
  | zero =>
    intro o acc resp hnext
    obtain ⟨u, hu⟩ := Option.isSome_iff_exists.mp hnext
    rw [_load_all_loop]
    simp only [hu]
  | succ fuel ih =>
    intro o acc resp hnext
    obtain ⟨u, hu⟩ := Option.isSome_iff_exists.mp hnext
    obtain ⟨r', hr', hn'⟩ := hall (IterableRequest.offset params
      (some (o + (IterableResponse.results resp : List O).length)))
    rw [_load_all_loop]
    simp only [hu, hr', ih _ _ _ hn', Option.map_none']

lemma load_all_loop_stuck (call : BookmarksRequest → Except DingError BookmarksResponse)
    (params : BookmarksRequest) (r : BookmarksResponse) (o : Nat) (u : Url)
    (hc : call (IterableRequest.offset params (some o)) = Except.ok r)
    (hres : r.results = []) (hnext : r.next = some u) :
    ∀ (fuel : Nat) (acc : List Bookmark),
      _load_all_loop call params fuel o acc r = none := by
  intro fuel
  induction fuel with
  | zero =>
    intro acc
    rw [_load_all_loop]
    simp only [bmResp_next, hnext]
  | succ fuel ih =>
    intro acc
    rw [_load_all_loop]
    simp only [bmResp_next, bmResp_results, hnext, hres, List.length_nil,
      Nat.add_zero, List.append_nil, hc, ih acc, Option.map_none']

/-- Claim C10: the fetch-all loop advances its offset by exactly the
number of records in the page just received (consecutive trace requests
are related by `advancesBy`); a successfully terminating run's last page
request got a response with `next` absent; a server that always answers
with `next` present makes the loop run forever (no fuel bound suffices);
and when the first response has an empty results list but `next` present,
the loop reuses the identical offset — the page operation being a pure
function of the request, it therefore runs forever. -/
theorem claim_C10 :
    (∀ (call : BookmarksRequest → Except DingError BookmarksResponse)
        (params : BookmarksRequest) (fuel : Nat) (tr : List BookmarksRequest)
        (res : Except DingError (List Bookmark)),
      all_bookmarks call params fuel = some (tr, res) →
      List.Chain' (advancesBy call) tr) ∧
    (∀ (call : BookmarksRequest → Except DingError BookmarksResponse)
        (params : BookmarksRequest) (fuel : Nat) (tr : List BookmarksRequest)
        (res : List Bookmark),
      all_bookmarks call params fuel = some (tr, Except.ok res) →
      ∃ hne : tr ≠ [], ∃ r, call (tr.getLast hne) = Except.ok r ∧ r.next = none) ∧
    (∀ (call : BookmarksRequest → Except DingError BookmarksResponse)
        (params : BookmarksRequest),
      (∀ p, ∃ r, call p = Except.ok r ∧ (r.next).isSome) →
      ∀ fuel, all_bookmarks call params fuel = none) ∧
    (∀ (call : BookmarksRequest → Except DingError BookmarksResponse)
        (params : BookmarksRequest) (r : BookmarksResponse) (u : Url),
      call { query := params.query, limit := none, offset := some 0 } = Except.ok r →
      r.results = [] → r.next = some u →
      ∀ fuel, all_bookmarks call params fuel = none) := by
  refine ⟨fun call params fuel tr res h => ?_, fun call params fuel tr res h => ?_,
    fun call params hall fuel => ?_, fun call params r u hc hres hnext fuel => ?_⟩
  · simp only [all_bookmarks, _load_all] at h
    cases hcall : call (IterableRequest.offset
        (IterableRequest.offset (IterableRequest.limit params none) none) (some 0)) with
    | error e =>
      simp only [hcall, Option.some.injEq, Prod.mk.injEq] at h
      rw [← h.1]
      exact List.chain'_singleton _
    | ok resp =>
      simp only [hcall, Option.map_eq_some', Prod.mk.injEq] at h
      obtain ⟨a, ha, htr, hres⟩ := h
      rw [← htr]
      exact load_all_loop_chain call _ fuel 0 [] resp a.1 a.2 hcall (by rw [ha])
  · simp only [all_bookmarks, _load_all] at h
    cases hcall : call (IterableRequest.offset
        (IterableRequest.offset (IterableRequest.limit params none) none) (some 0)) with
    | error e =>
      simp only [hcall, Option.some.injEq, Prod.mk.injEq] at h
      exact absurd h.2 (by simp)
    | ok resp =>
      simp only [hcall, Option.map_eq_some', Prod.mk.injEq] at h
      obtain ⟨a, ha, htr, hres⟩ := h
      have ha' : _load_all_loop call
          (IterableRequest.offset (IterableRequest.limit params none) none)
          fuel 0 [] resp = some (a.1, Except.ok res) := by
        rw [ha, ← hres]
      rcases load_all_loop_last call _ fuel 0 [] resp a.1 res ha'
        with ⟨hnil, hrn⟩ | ⟨hne, rr, hcr, hrn⟩
      · rw [← htr, hnil]
        exact ⟨by simp, resp, hcall, hrn⟩
      · rw [← htr]
        refine ⟨by simp, rr, ?_, hrn⟩
        rw [List.getLast_cons hne]
        exact hcr
  · obtain ⟨r0, hr0, hn0⟩ := hall (IterableRequest.offset
      (IterableRequest.offset (IterableRequest.limit params none) none) (some 0))
    simp only [all_bookmarks, _load_all, hr0]
    rw [load_all_loop_forever call _ hall fuel 0 [] r0 hn0, Option.map_none']
  · have hc' : call (IterableRequest.offset
        (IterableRequest.offset (IterableRequest.limit params none) none) (some 0))
        = Except.ok r := hc
    simp only [all_bookmarks, _load_all, hc']
    rw [load_all_loop_stuck call _ r 0 u hc' hres hnext fuel [], Option.map_none']

/-- Witness for claim C10 at two concrete servers: one that terminates
immediately (with `next` absent) and one that always reports `next`
present with an empty page. -/
theorem claim_C10_witness :
    (all_bookmarks stopServer { query := none, limit := none, offset := none } 2
      = some ([{ query := none, limit := none, offset := some 0 }], Except.ok []) ∧
      List.Chain' (advancesBy stopServer)
        [{ query := none, limit := none, offset := some 0 }]) ∧
    (∃ hne : ([{ query := none, limit := none, offset := some 0 }] : List BookmarksRequest) ≠ [],
      ∃ r, stopServer
          (([{ query := none, limit := none, offset := some 0 }] : List BookmarksRequest).getLast hne)
        = Except.ok r ∧ r.next = none) ∧
    ((∀ p : BookmarksRequest, ∃ r, nextServer p = Except.ok r ∧ (r.next).isSome) ∧
      all_bookmarks nextServer { query := none, limit := none, offset := none } 3 = none) ∧
    (nextServer ({ query := none, limit := none, offset := some 0 } : BookmarksRequest)
      = Except.ok ({ count := 0, next := some { raw := "u" }, previous := none, results := [] } : BookmarksResponse) ∧
      ({ count := 0, next := some { raw := "u" }, previous := none, results := [] } : BookmarksResponse).results = [] ∧
      ({ count := 0, next := some { raw := "u" }, previous := none, results := [] } : BookmarksResponse).next = some { raw := "u" } ∧
      all_bookmarks nextServer { query := none, limit := none, offset := none } 5 = none) :=
  ⟨⟨by rfl,
      claim_C10.1 stopServer { query := none, limit := none, offset := none } 2 _ _ (by rfl)⟩,
    claim_C10.2.1 stopServer { query := none, limit := none, offset := none } 2 _ _ (by rfl),
    ⟨fun p => ⟨_, rfl, rfl⟩,
      claim_C10.2.2.1 nextServer { query := none, limit := none, offset := none }
        (fun p => ⟨_, rfl, rfl⟩) 3⟩,
    ⟨rfl, rfl, rfl,
      claim_C10.2.2.2 nextServer { query := none, limit := none, offset := none } _ _
        rfl rfl rfl 5⟩⟩

end DingRs
